import Mathlib

/-!
Verification of the SIF (Singularity Image Format) loader and integrity
engine against the repository sources.

The loader (`pkg/sif/load.go`) is embedded directly: byte streams become
`List Nat` with an explicit position, fixed-width little-endian decoding is
spelled out, stateful functions pass a `FileImage` explicitly and return an
optional `SifError` mirroring the Go error paths.  System-call outcomes
(open, mmap) are abstracted as boolean parameters; a successful mmap is
recorded in the `mapped` flag so the resource lifecycle can be reasoned
about.  Constants and the `GetSIFArch` table come from the repository's
header declarations, which are not among the provided sources, and are
modelled from the specification where so noted.

The integrity engine (`pkg/integrity/clearsign.go`) is not among the
provided sources (only its test is); it is modelled from the specification,
sections 4.3 and 7, with the cryptographic digest idealized as
collision-free.
-/

/-- Modelled from the spec: the fixed magic string identifying the format
(the repository's header declaration file is not among the sources). -/
def HdrMagic : String := "SIF_MAGIC"

/-- Modelled from the spec: length in bytes of the magic field, including
the trailing NUL of the padded fixed string. -/
def HdrMagicLen : Nat := 10

/-- Modelled from the spec: the supported format version string. -/
def HdrVersion : String := "01"

/-- Modelled from the spec: length in bytes of the version field. -/
def HdrVersionLen : Nat := 3

/-- Modelled from the spec: length in bytes of the architecture tag field. -/
def HdrArchLen : Nat := 3

/-- Modelled from the spec: tag for an undefined or unsupported architecture. -/
def HdrArchUnknown : String := "00"

/-- Modelled from the spec: tag for the 386 architecture. -/
def HdrArch386 : String := "01"

/-- Modelled from the spec: tag for the AMD64 architecture. -/
def HdrArchAMD64 : String := "02"

/-- Modelled from the spec: tag for the ARM architecture. -/
def HdrArchARM : String := "03"

/-- Modelled from the spec: tag for the ARM64 architecture. -/
def HdrArchARM64 : String := "04"

/-- Modelled from the spec: tag for the PPC64 architecture. -/
def HdrArchPPC64 : String := "05"

/-- Modelled from the spec: tag for the little-endian PPC64 architecture. -/
def HdrArchPPC64le : String := "06"

/-- Modelled from the spec: tag for the MIPS architecture. -/
def HdrArchMIPS : String := "07"

/-- Modelled from the spec: tag for the little-endian MIPS architecture. -/
def HdrArchMIPSle : String := "08"

/-- Modelled from the spec: tag for the MIPS64 architecture. -/
def HdrArchMIPS64 : String := "09"

/-- Modelled from the spec: tag for the little-endian MIPS64 architecture. -/
def HdrArchMIPS64le : String := "10"

/-- Modelled from the spec: tag for the s390x architecture. -/
def HdrArchS390x : String := "11"

/-- Modelled from the spec: the closed map from host architecture names
(Go's GOARCH strings) to SIF architecture tags; names outside the closed
enum map to `HdrArchUnknown`. -/
def GetSIFArch (goarch : String) : String :=
  if goarch = "386" then HdrArch386
  else if goarch = "amd64" then HdrArchAMD64
  else if goarch = "arm" then HdrArchARM
  else if goarch = "arm64" then HdrArchARM64
  else if goarch = "ppc64" then HdrArchPPC64
  else if goarch = "ppc64le" then HdrArchPPC64le
  else if goarch = "mips" then HdrArchMIPS
  else if goarch = "mipsle" then HdrArchMIPSle
  else if goarch = "mips64" then HdrArchMIPS64
  else if goarch = "mips64le" then HdrArchMIPS64le
  else if goarch = "s390x" then HdrArchS390x
  else HdrArchUnknown

/-- The bytes of a string, used to build concrete header fields. -/
def strBytes (s : String) : List Nat := s.data.map Char.toNat

/-- Go's `string(field[:n])`: the first `n` bytes of a fixed-width header
field read back as a string. -/
def hdrStr (bs : List Nat) (n : Nat) : String :=
  String.mk ((bs.take n).map Char.ofNat)

/-- Little-endian value of a list of bytes. -/
def leNat (bs : List Nat) : Nat :=
  bs.foldr (fun b acc => b + 256 * acc) 0

/-- Little-endian two's-complement decoding of an 8-byte field into an
integer, as Go's `binary.Read` does for an `int64`. -/
def leInt64 (bs : List Nat) : Int :=
  let n := leNat bs
  if n < 2 ^ 63 then (n : Int) else (n : Int) - 2 ^ 64

/-- The global header of a SIF image.  Fields follow the specification,
section 6: magic, version, architecture tag, container id, creation and
modification times, descriptor-table offset and length, descriptors-in-use
count, and descriptor slot capacity.  Fixed strings are kept as their raw
bytes; integer fields are 64-bit little-endian on disk. -/
structure Header where
  Magic : List Nat
  Version : List Nat
  Arch : List Nat
  ID : List Nat
  Ctime : Int
  Mtime : Int
  Descroff : Int
  Descrlen : Int
  Dfree : Int
  Dtotal : Int
deriving DecidableEq, Repr

/-- Modelled from the spec: a descriptor is a fixed-size record whose exact
field layout is a binary contract (spec section 6); none of the claims
under verification inspect descriptor fields, so the record keeps its raw
bytes. -/
structure Descriptor where
  raw : List Nat
deriving DecidableEq, Repr

/-- Modelled from the spec: the fixed on-disk size of one descriptor
record.  The exact value is part of the binary contract and is not
restated by the specification; the claims under verification only require
it to be positive. -/
def descrSize : Nat := 128

/-- Byte size of the encoded global header (sum of its field widths). -/
def hdrSize : Nat := 80

/-- Decode the 80 header bytes into a `Header`, fields in the order of
spec section 6, integers little-endian. -/
def decodeHeader (bs : List Nat) : Header :=
  { Magic := bs.take 10
    Version := (bs.drop 10).take 3
    Arch := (bs.drop 13).take 3
    ID := (bs.drop 16).take 16
    Ctime := leInt64 ((bs.drop 32).take 8)
    Mtime := leInt64 ((bs.drop 40).take 8)
    Descroff := leInt64 ((bs.drop 48).take 8)
    Descrlen := leInt64 ((bs.drop 56).take 8)
    Dfree := leInt64 ((bs.drop 64).take 8)
    Dtotal := leInt64 ((bs.drop 72).take 8) }

/-- A `bytes.Reader`: the underlying bytes plus the current read position. -/
structure ByteReader where
  data : List Nat
  pos : Nat
deriving DecidableEq, Repr

/-- Read `n` bytes from the current position, as `binary.Read` does via
`io.ReadFull`: succeeds exactly when `n` bytes remain (reading zero bytes
always succeeds, even past the end). -/
def ByteReader.readBytes (r : ByteReader) (n : Nat) : Option (List Nat × ByteReader) :=
  if n ≤ r.data.length - r.pos then
    some ((r.data.drop r.pos).take n, { r with pos := r.pos + n })
  else
    none

/-- Errors of the loader, one constructor per distinct `fmt.Errorf` site in
`load.go` (plus the abstracted open/mmap/munmap/close syscall failures). -/
inductive SifError where
  | unsupportedGoarch
  | badMagic
  | badVersion
  | badArch
  | headerRead
  | descrSeek
  | descrRead
  | openFail
  | mapFail
  | nilFp
  | munmapFail
  | closeFail
deriving DecidableEq, Repr

/-- Alias for the global header type, so that the `FileImage` field can
keep the source's field name `Header`. -/
abbrev GlobalHeader := Header

/-- The loaded image handle: the decoded header, the descriptor array
(`none` models Go's nil slice), the reader over the backing bytes, whether
a file handle backs the image (`Fp != nil`), whether an mmap is currently
established, and whether the file handle has been closed. -/
structure FileImage where
  Header : GlobalHeader
  DescrArr : Option (List Descriptor)
  Reader : ByteReader
  fpPresent : Bool
  mapped : Bool
  fpClosed : Bool
deriving DecidableEq, Repr

/-- The zero-valued header, as Go leaves it before a successful read. -/
def emptyHeader : Header :=
  { Magic := List.replicate 10 0
    Version := List.replicate 3 0
    Arch := List.replicate 3 0
    ID := List.replicate 16 0
    Ctime := 0, Mtime := 0, Descroff := 0, Descrlen := 0, Dfree := 0, Dtotal := 0 }

/-- The zero-valued `FileImage` before loading populates it. -/
def emptyFileImage : FileImage :=
  { Header := emptyHeader, DescrArr := none, Reader := ⟨[], 0⟩
    fpPresent := false, mapped := false, fpClosed := false }

/-- `readHeader`: read the global header from the container file; decodes
`hdrSize` bytes from the current position or fails. -/
def readHeader (fimg : FileImage) : FileImage × Option SifError :=
  match fimg.Reader.readBytes hdrSize with
  | none => (fimg, some .headerRead)
  | some (bs, r) => ({ fimg with Header := decodeHeader bs, Reader := r }, none)

/-- Split `n` descriptor records of `descrSize` bytes each off a byte list. -/
def chunkDescrs : Nat → List Nat → List Descriptor
  | 0, _ => []
  | n + 1, bs => ⟨bs.take descrSize⟩ :: chunkDescrs n (bs.drop descrSize)

/-- `readDescriptors`: seek to the descriptor offset (a negative offset is
a seek error, as for `bytes.Reader.Seek`; seeking past the end is not) and
bulk-read `Dtotal` descriptor records; on a read failure the descriptor
array is reset to nil and an error returned.  Go's `make` panics when
`Dtotal` is negative; the model maps a negative count to zero, so theorems
about this function carry a `0 ≤ Dtotal` hypothesis. -/
def readDescriptors (fimg : FileImage) : FileImage × Option SifError :=
  if fimg.Header.Descroff < 0 then
    (fimg, some .descrSeek)
  else
    let r : ByteReader := { fimg.Reader with pos := fimg.Header.Descroff.toNat }
    match r.readBytes (fimg.Header.Dtotal.toNat * descrSize) with
    | none => ({ fimg with DescrArr := none }, some .descrRead)
    | some (bs, r2) =>
        ({ fimg with DescrArr := some (chunkDescrs fimg.Header.Dtotal.toNat bs), Reader := r2 },
         none)

/-- `isValidSif`: assess SIF validity from key header fields.  The host
architecture (Go's `runtime.GOARCH`) is passed explicitly.  The host must
map to a known tag; magic and version must match exactly; when `runnable`,
the two architecture checks of the source are reproduced verbatim. -/
def isValidSif (fimg : FileImage) (runnable : Bool) (goarch : String) : Except SifError Unit :=
  let arch := GetSIFArch goarch
  if arch = HdrArchUnknown then
    .error .unsupportedGoarch
  else if hdrStr fimg.Header.Magic (HdrMagicLen - 1) ≠ HdrMagic then
    .error .badMagic
  else if hdrStr fimg.Header.Version (HdrVersionLen - 1) ≠ HdrVersion then
    .error .badVersion
  else if runnable then
    if hdrStr fimg.Header.Arch (HdrArchLen - 1) = HdrArchAMD64
        ∧ (arch ≠ HdrArch386 ∧ arch ≠ HdrArchAMD64) then
      .error .badArch
    else if hdrStr fimg.Header.Arch (HdrArchLen - 1) ≠ arch then
      .error .badArch
    else
      .ok ()
  else
    .ok ()

/-- `LoadContainer`: open the file (outcome abstracted as `openOk`), mmap
it (outcome abstracted as `mapOk`; on success the whole file's bytes back
the reader and `mapped` is set), then read the header, validate it in
runnable mode, and read the descriptor array.  As in the source, no
failure path after a successful mmap unmaps. -/
def LoadContainer (fileData : List Nat) (rdonly : Bool) (openOk mapOk : Bool)
    (goarch : String) : FileImage × Option SifError :=
  let _ := rdonly
  if openOk = false then
    (emptyFileImage, some .openFail)
  else
    let fimg := { emptyFileImage with fpPresent := true }
    if mapOk = false then
      (fimg, some .mapFail)
    else
      let fimg := { fimg with mapped := true, Reader := ⟨fileData, 0⟩ }
      match readHeader fimg with
      | (fimg, some e) => (fimg, some e)
      | (fimg, none) =>
        match isValidSif fimg true goarch with
        | .error e => (fimg, some e)
        | .ok _ =>
          match readDescriptors fimg with
          | (fimg, some e) => (fimg, some e)
          | (fimg, none) => (fimg, none)

/-- `LoadContainerFp`: as `LoadContainer` over a pre-opened handle; a nil
handle is rejected first. -/
def LoadContainerFp (fpNil : Bool) (fileData : List Nat) (rdonly : Bool) (mapOk : Bool)
    (goarch : String) : FileImage × Option SifError :=
  let _ := rdonly
  if fpNil then
    (emptyFileImage, some .nilFp)
  else
    let fimg := { emptyFileImage with fpPresent := true }
    if mapOk = false then
      (fimg, some .mapFail)
    else
      let fimg := { fimg with mapped := true, Reader := ⟨fileData, 0⟩ }
      match readHeader fimg with
      | (fimg, some e) => (fimg, some e)
      | (fimg, none) =>
        match isValidSif fimg true goarch with
        | .error e => (fimg, some e)
        | .ok _ =>
          match readDescriptors fimg with
          | (fimg, some e) => (fimg, some e)
          | (fimg, none) => (fimg, none)

/-- `LoadContainerReader`: process SIF data from a byte stream; reads and
validates the header in non-runnable mode, then reads descriptors but
deliberately ignores their error (the descriptor array stays nil when the
buffer does not include descriptor data). -/
def LoadContainerReader (b : List Nat) (goarch : String) : FileImage × Option SifError :=
  let fimg := { emptyFileImage with Reader := ⟨b, 0⟩ }
  match readHeader fimg with
  | (fimg, some e) => (fimg, some e)
  | (fimg, none) =>
    match isValidSif fimg false goarch with
    | .error e => (fimg, some e)
    | .ok _ => ((readDescriptors fimg).1, none)

/-- `unmapFile`: `syscall.Munmap` on the image's data; Go's munmap wrapper
fails (EINVAL) when the slice is not an active mapping, which is the case
exactly when `mapped` is false. -/
def unmapFile (fimg : FileImage) : Except SifError FileImage :=
  if fimg.mapped then .ok { fimg with mapped := false } else .error .munmapFail

/-- `os.File.Close` on the image's handle: fails when already closed. -/
def closeFp (fimg : FileImage) : Except SifError FileImage :=
  if fimg.fpClosed then .error .closeFail else .ok { fimg with fpClosed := true }

/-- `UnloadContainer`: when a file handle backs the image, unmap then
close, propagating the first error; otherwise do nothing. -/
def UnloadContainer (fimg : FileImage) : FileImage × Option SifError :=
  if fimg.fpPresent then
    match unmapFile fimg with
    | .error e => (fimg, some e)
    | .ok f2 =>
      match closeFp f2 with
      | .error e => (f2, some e)
      | .ok f3 => (f3, none)
  else
    (fimg, none)

/-- The structured value the integrity tests protect: two integer fields,
as in the repository's test type. -/
structure testType where
  One : Int
  Two : Int
deriving DecidableEq, Repr

/-- Decimal digit characters of a natural number, most significant first. -/
def natChars (n : Nat) : List Char :=
  if n < 10 then [Nat.digitChar n]
  else natChars (n / 10) ++ [Nat.digitChar (n % 10)]
decreasing_by
  exact Nat.div_lt_self (by omega) (by omega)

/-- Value of a list of decimal digit characters, most significant first. -/
def digitsVal (cs : List Char) : Nat :=
  cs.foldl (fun a c => a * 10 + (c.toNat - 48)) 0

/-- Decimal character rendering of an integer, with a leading minus sign
for negative values. -/
def intChars (i : Int) : List Char :=
  if i < 0 then '-' :: natChars i.natAbs else natChars i.natAbs

/-- Characters opening the canonical JSON object up to its first value. -/
def jsonOpen : List Char := ['\x7b', '\"', 'O', 'n', 'e', '\"', ':']

/-- Characters separating the first value from the second. -/
def jsonSep : List Char := [',', '\"', 'T', 'w', 'o', '\"', ':']

/-- Characters closing the canonical JSON object. -/
def jsonClose : List Char := ['\x7d']

/-- Modelled from the spec: the canonical, deterministic JSON serialization
of the protected value (spec section 4.3, step 1; the JSON library is an
external collaborator, modelled by an explicit canonical encoder). -/
def jsonEncode (v : testType) : String :=
  String.mk (jsonOpen ++ (intChars v.One ++ (jsonSep ++ (intChars v.Two ++ jsonClose))))

/-- Consume an expected literal character sequence off the front of the
input, returning the remainder, or fail. -/
def consumeLit : List Char → List Char → Option (List Char)
  | [], cs => some cs
  | _ :: _, [] => none
  | l :: ls, c :: cs => if c = l then consumeLit ls cs else none

/-- Parse a nonempty run of decimal digits into a natural number. -/
def parseNatCs (cs : List Char) : Option (Nat × List Char) :=
  if (cs.takeWhile Char.isDigit).isEmpty then none
  else some (digitsVal (cs.takeWhile Char.isDigit), cs.drop (cs.takeWhile Char.isDigit).length)

/-- Parse an optionally negated decimal integer. -/
def parseIntCs (cs : List Char) : Option (Int × List Char) :=
  match cs with
  | [] => none
  | c :: rest =>
    if c = '-' then (parseNatCs rest).map (fun p => (-(p.1 : Int), p.2))
    else (parseNatCs cs).map (fun p => ((p.1 : Int), p.2))

/-- Modelled from the spec: decode the canonical payload into the caller's
expected structured value (spec section 4.3, step 5); the exact inverse of
`jsonEncode`. -/
def jsonDecode (s : String) : Option testType :=
  (consumeLit jsonOpen s.data).bind fun r1 =>
  (parseIntCs r1).bind fun p1 =>
  (consumeLit jsonSep p1.2).bind fun r3 =>
  (parseIntCs r3).bind fun p2 =>
  (consumeLit jsonClose p2.2).bind fun r5 =>
  if r5.isEmpty then some ⟨p1.1, p2.1⟩ else none

/-- The closed set of supported hash algorithms (spec section 4.3, step 2). -/
inductive HashAlgo where
  | SHA1
  | SHA224
  | SHA256
  | SHA384
  | SHA512
deriving DecidableEq, Repr

/-- Modelled from the spec: the signing configuration carries the
caller-selected hash algorithm, or nothing when the library default is to
be used. -/
structure PGPConfig where
  DefaultHash : Option HashAlgo
deriving DecidableEq, Repr

/-- The hash algorithm a configuration selects: the caller's choice, or
the library default (SHA-256) if unspecified. -/
def configHash (c : PGPConfig) : HashAlgo :=
  c.DefaultHash.getD HashAlgo.SHA256

/-- Modelled from the spec: a private signing key, identified by its key
id, possibly still in its encrypted (locked) state. -/
structure PrivateKey where
  KeyId : Nat
  Encrypted : Bool
deriving DecidableEq, Repr

/-- Modelled from the spec: a public-key entity of the keyring, identified
by its key id. -/
structure Entity where
  KeyId : Nat
deriving DecidableEq, Repr

/-- Modelled from the spec: a digest of canonical bytes under a hash
algorithm.  The digest is idealized as collision-free by pairing the
algorithm with the exact bytes digested; the spec's tamper-detection
property (section 4.3, step 4) equates a digest mismatch with the payload
bytes having been altered. -/
structure Digest where
  algo : HashAlgo
  content : String
deriving DecidableEq, Repr

/-- Compute the digest of payload bytes under a hash algorithm. -/
def computeDigest (h : HashAlgo) (payload : String) : Digest := ⟨h, payload⟩

/-- Modelled from the spec: the detached-signature packet records the
issuer key id, the hash algorithm (the algorithm travels with the
signature), and the signed digest. -/
structure SigPacket where
  IssuerKeyId : Nat
  Hash : HashAlgo
  SignedDigest : Digest
deriving DecidableEq, Repr

/-- Modelled from the spec: an envelope is the canonical payload bytes
plus the detached signature; the bytes trailing the structurally complete
envelope in the verifier's input are carried alongside. -/
structure Envelope where
  Plaintext : String
  Sig : SigPacket
  Trailing : String
deriving DecidableEq, Repr

/-- Errors of the integrity engine, one per spec taxonomy entry that the
sign and verify protocols can produce (spec section 7). -/
inductive IntegrityError where
  | keyErr
  | unknownIssuer
  | sigErr
  | trailingData
  | formatErr
deriving DecidableEq, Repr

/-- Modelled from the spec: `signAndEncodeJSON` (spec section 4.3, sign
protocol).  Fails with a KeyError when the private key is still encrypted;
otherwise serializes the value canonically, digests it under the
configured hash, and assembles the envelope of payload plus detached
signature, with no trailing bytes. -/
def signAndEncodeJSON (v : testType) (key : PrivateKey) (cfg : PGPConfig) :
    Except IntegrityError Envelope :=
  if key.Encrypted then
    .error .keyErr
  else
    let payload := jsonEncode v
    let h := configHash cfg
    .ok ⟨payload, ⟨key.KeyId, h, computeDigest h payload⟩, ""⟩

/-- Modelled from the spec: `verifyAndDecodeJSON` (spec section 4.3,
verify protocol).  Resolves the issuer key id against the keyring (no
match: UnknownIssuerError); recomputes the digest over the extracted
payload under the algorithm recorded in the signature and compares it with
the signed digest (mismatch: SignatureError); requires zero trailing bytes
(TrailingDataError otherwise); then, when an output is requested, decodes
the canonical payload.  Returns the matched entity, the decoded value, and
separately the trailing bytes, which are reported in all cases. -/
def verifyAndDecodeJSON (env : Envelope) (wantOutput : Bool) (keyring : List Entity) :
    Except IntegrityError (Entity × Option testType) × String :=
  match keyring.find? (fun e => e.KeyId == env.Sig.IssuerKeyId) with
  | none => (.error .unknownIssuer, env.Trailing)
  | some e =>
    if computeDigest env.Sig.Hash env.Plaintext ≠ env.Sig.SignedDigest then
      (.error .sigErr, env.Trailing)
    else if env.Trailing ≠ "" then
      (.error .trailingData, env.Trailing)
    else if wantOutput then
      match jsonDecode env.Plaintext with
      | none => (.error .formatErr, env.Trailing)
      | some v => (.ok (e, some v), env.Trailing)
    else
      (.ok (e, none), env.Trailing)

/-- A 386-tagged image with valid magic and version, used to exhibit the
behaviour of runnable validation on an amd64 host. -/
def img386 : FileImage :=
  { emptyFileImage with
      Header := { emptyHeader with
        Magic := strBytes HdrMagic ++ [0]
        Version := strBytes HdrVersion ++ [0]
        Arch := strBytes HdrArch386 ++ [0] } }

/-- Eighty zero bytes: a buffer whose header read succeeds but whose magic
is corrupted. -/
def corruptBuf : List Nat := List.replicate 80 0

/-- A loaded image backed by a file: handle present, mapping established. -/
def sampleLoaded : FileImage :=
  { emptyFileImage with fpPresent := true, mapped := true }

/-- A concrete valid 80-byte image buffer: correct magic and version,
architecture tag 386, a descriptor table of one descriptor at offset 80,
so the buffer itself stops short of the descriptor table. -/
def sampleBuf : List Nat :=
  strBytes HdrMagic ++ [0] ++ (strBytes HdrVersion ++ [0]) ++ (strBytes HdrArch386 ++ [0])
    ++ List.replicate 16 0
    ++ List.replicate 8 0 ++ List.replicate 8 0
    ++ ([80] ++ List.replicate 7 0)
    ++ List.replicate 8 0
    ++ List.replicate 8 0
    ++ ([1] ++ List.replicate 7 0)

/-- The envelope produced by signing the test value with key id 7 under
the default hash. -/
def sampleEnv : Envelope :=
  ⟨jsonEncode ⟨1, 2⟩, ⟨7, HashAlgo.SHA256, computeDigest HashAlgo.SHA256 (jsonEncode ⟨1, 2⟩)⟩, ""⟩

/-- The head of the character list, if any, fails the predicate; digit
runs stop exactly here. -/
def headFails (p : Char → Bool) : List Char → Prop
  | [] => True
  | c :: _ => p c = false

theorem headFails_cons (p : Char → Bool) (c : Char) (cs : List Char) (h : p c = false) :
    headFails p (c :: cs) := h

theorem digitChar_toNat (d : Nat) (h : d < 10) : (Nat.digitChar d).toNat - 48 = d := by
  interval_cases d <;> decide

theorem digitChar_isDigit (d : Nat) (h : d < 10) : (Nat.digitChar d).isDigit = true := by
  interval_cases d <;> decide

theorem digitsVal_natChars (n : Nat) : digitsVal (natChars n) = n := by
  induction n using Nat.strong_induction_on with
  | _ n ih =>
    rw [natChars]
    by_cases h : n < 10
    · simp only [if_pos h]
      simp [digitsVal, digitChar_toNat n h]
    · simp only [if_neg h]
      have hlt : n / 10 < n := Nat.div_lt_self (by omega) (by omega)
      have ihd := ih (n / 10) hlt
      unfold digitsVal at ihd ⊢
      rw [List.foldl_append, ihd]
      simp only [List.foldl_cons, List.foldl_nil]
      rw [digitChar_toNat (n % 10) (Nat.mod_lt n (by omega))]
      omega

theorem natChars_digits (n : Nat) : ∀ c ∈ natChars n, c.isDigit = true := by
  induction n using Nat.strong_induction_on with
  | _ n ih =>
    rw [natChars]
    by_cases h : n < 10
    · simp only [if_pos h]
      intro c hc
      simp only [List.mem_singleton] at hc
      subst hc
      exact digitChar_isDigit n h
    · simp only [if_neg h]
      intro c hc
      rcases List.mem_append.mp hc with hl | hr
      · exact ih (n / 10) (Nat.div_lt_self (by omega) (by omega)) c hl
      · simp only [List.mem_singleton] at hr
        subst hr
        exact digitChar_isDigit (n % 10) (Nat.mod_lt n (by omega))

theorem natChars_ne_nil (n : Nat) : natChars n ≠ [] := by
  rw [natChars]
  by_cases h : n < 10
  · simp [if_pos h]
  · simp [if_neg h]

theorem takeWhile_append_headFails (p : Char → Bool) (xs ys : List Char)
    (hx : ∀ c ∈ xs, p c = true) (hy : headFails p ys) :
    (xs ++ ys).takeWhile p = xs := by
  induction xs with
  | nil =>
    simp only [List.nil_append]
    cases ys with
    | nil => rfl
    | cons y ys =>
      unfold headFails at hy
      simp [List.takeWhile_cons, hy]
  | cons x xs ih =>
    have hpx : p x = true := hx x (List.mem_cons_self x xs)
    simp only [List.cons_append, List.takeWhile_cons, hpx, ite_true]
    rw [ih (fun c hc => hx c (List.mem_cons_of_mem x hc))]

theorem parseNatCs_app (n : Nat) (rest : List Char) (hy : headFails Char.isDigit rest) :
    parseNatCs (natChars n ++ rest) = some (n, rest) := by
  have hne : (natChars n).isEmpty = false := by
    cases h : natChars n with
    | nil => exact absurd h (natChars_ne_nil n)
    | cons c cs => rfl
  unfold parseNatCs
  rw [takeWhile_append_headFails Char.isDigit (natChars n) rest (natChars_digits n) hy]
  rw [List.drop_left]
  simp [hne, digitsVal_natChars]

theorem parseIntCs_app (i : Int) (rest : List Char) (hy : headFails Char.isDigit rest) :
    parseIntCs (intChars i ++ rest) = some (i, rest) := by
  unfold intChars
  by_cases hi : i < 0
  · simp only [if_pos hi, List.cons_append]
    simp only [parseIntCs]
    rw [if_pos trivial, parseNatCs_app i.natAbs rest hy]
    show some (-(i.natAbs : Int), rest) = some (i, rest)
    have hval : -(i.natAbs : Int) = i := by omega
    rw [hval]
  · simp only [if_neg hi]
    cases h : natChars i.natAbs with
    | nil => exact absurd h (natChars_ne_nil i.natAbs)
    | cons c cs =>
      have hcd : c.isDigit = true := by
        apply natChars_digits i.natAbs
        rw [h]
        exact List.mem_cons_self c cs
      have hcm : c ≠ '-' := by
        intro hcontra
        rw [hcontra] at hcd
        exact absurd hcd (by decide)
      rw [List.cons_append]
      simp only [parseIntCs]
      rw [if_neg hcm]
      rw [← List.cons_append, ← h, parseNatCs_app i.natAbs rest hy]
      show some ((i.natAbs : Int), rest) = some (i, rest)
      have hval : ((i.natAbs : Int)) = i := by omega
      rw [hval]

theorem consumeLit_app (ls cs : List Char) : consumeLit ls (ls ++ cs) = some cs := by
  induction ls with
  | nil => rfl
  | cons l ls ih => simp [consumeLit, ih]

theorem consumeLit_self (ls : List Char) : consumeLit ls ls = some [] := by
  have h := consumeLit_app ls []
  rwa [List.append_nil] at h

theorem jsonDecode_jsonEncode (v : testType) : jsonDecode (jsonEncode v) = some v := by
  unfold jsonDecode jsonEncode
  have hdata : (String.mk (jsonOpen ++ (intChars v.One ++ (jsonSep ++ (intChars v.Two ++ jsonClose))))).data
      = jsonOpen ++ (intChars v.One ++ (jsonSep ++ (intChars v.Two ++ jsonClose))) := rfl
  rw [hdata, consumeLit_app]
  simp only [Option.some_bind]
  have hsep : headFails Char.isDigit (jsonSep ++ (intChars v.Two ++ jsonClose)) :=
    headFails_cons _ _ _ (by decide)
  rw [parseIntCs_app v.One _ hsep]
  simp only [Option.some_bind]
  rw [consumeLit_app]
  simp only [Option.some_bind]
  have hclose : headFails Char.isDigit jsonClose := headFails_cons _ _ _ (by decide)
  rw [parseIntCs_app v.Two _ hclose]
  simp only [Option.some_bind]
  rw [consumeLit_self]
  rfl

theorem readHeader_success (fimg : FileImage) (b : List Nat) (hr : fimg.Reader = ⟨b, 0⟩)
    (hlen : hdrSize ≤ b.length) :
    readHeader fimg = ({ fimg with
        Header := decodeHeader (b.take hdrSize)
        Reader := ⟨b, hdrSize⟩ }, none) := by
  unfold readHeader ByteReader.readBytes
  rw [hr]
  simp [hlen]

theorem isValidSif_nonrunnable_ok (fimg : FileImage) (goarch : String)
    (hsup : GetSIFArch goarch ≠ HdrArchUnknown)
    (hmagic : hdrStr fimg.Header.Magic (HdrMagicLen - 1) = HdrMagic)
    (hver : hdrStr fimg.Header.Version (HdrVersionLen - 1) = HdrVersion) :
    isValidSif fimg false goarch = .ok () := by
  simp only [isValidSif]
  rw [if_neg hsup, if_neg (not_not_intro hmagic), if_neg (not_not_intro hver)]
  simp

theorem isValidSif_runnable_mismatch (fimg : FileImage) (goarch : String)
    (hsup : GetSIFArch goarch ≠ HdrArchUnknown)
    (hmagic : hdrStr fimg.Header.Magic (HdrMagicLen - 1) = HdrMagic)
    (hver : hdrStr fimg.Header.Version (HdrVersionLen - 1) = HdrVersion)
    (harch : hdrStr fimg.Header.Arch (HdrArchLen - 1) ≠ GetSIFArch goarch) :
    isValidSif fimg true goarch = .error .badArch := by
  simp only [isValidSif]
  rw [if_neg hsup, if_neg (not_not_intro hmagic), if_neg (not_not_intro hver)]
  simp only [ite_true]
  by_cases hc : hdrStr fimg.Header.Arch (HdrArchLen - 1) = HdrArchAMD64
      ∧ (GetSIFArch goarch ≠ HdrArch386 ∧ GetSIFArch goarch ≠ HdrArchAMD64)
  · rw [if_pos hc]
  · rw [if_neg hc, if_pos harch]

theorem readDescriptors_short (fimg : FileImage)
    (hoff : 0 ≤ fimg.Header.Descroff)
    (hshort : fimg.Reader.data.length
      < fimg.Header.Descroff.toNat + fimg.Header.Dtotal.toNat * descrSize) :
    readDescriptors fimg = ({ fimg with DescrArr := none }, some .descrRead)
    ∨ (fimg.Header.Dtotal.toNat = 0
       ∧ readDescriptors fimg
         = ({ fimg with
              DescrArr := some []
              Reader := { fimg.Reader with pos := fimg.Header.Descroff.toNat } }, none)) := by
  unfold readDescriptors ByteReader.readBytes
  rw [if_neg (by omega)]
  by_cases hz : fimg.Header.Dtotal.toNat = 0
  · right
    refine ⟨hz, ?_⟩
    rw [hz]
    simp [chunkDescrs]
  · left
    have hcond : ¬ (fimg.Header.Dtotal.toNat * descrSize
        ≤ fimg.Reader.data.length - fimg.Header.Descroff.toNat) := by
      unfold descrSize at hshort ⊢
      omega
    simp [hcond]

theorem find?_entity (keyring : List Entity) (k : Nat) (hin : Entity.mk k ∈ keyring) :
    keyring.find? (fun e => e.KeyId == k) = some (Entity.mk k) := by
  induction keyring with
  | nil => cases hin
  | cons a l ih =>
    by_cases ha : (a.KeyId == k) = true
    · have hak : a = Entity.mk k := by
        cases a
        simp only [Nat.beq_eq_true_eq] at ha
        rw [ha]
      rw [hak]
      simp [List.find?]
    · rw [List.find?]
      simp only [ha, cond_false]
      apply ih
      rcases List.mem_cons.mp hin with heq | hmem
      · exfalso
        apply ha
        rw [← heq]
        simp
      · exact hmem

/-- Claim C1: the claim states that runnable validation accepts a
386-tagged image on an amd64 host (the legacy exception the source's own
comment announces).  The code does not implement it: the second
architecture check requires exact equality of the image tag and the host
tag, so the 386-on-amd64 case is rejected.  This theorem evaluates
`isValidSif` at that input: the image has valid magic and version and the
386 tag, the host is amd64, and runnable validation returns the
architecture-mismatch error. -/
theorem isValidSif_rejects_386_image_on_amd64_host :
    isValidSif img386 true "amd64" = .error .badArch := by
  rfl

/-- Claim C2: the claim states that a failure after a successful mapping
unmaps before returning.  The code has no unmap call on any failure path
of `LoadContainer` or `LoadContainerFp`: loading a buffer with corrupted
magic after a successful open and mmap returns the error with the mapping
still established (`mapped` remains true). -/
theorem loadContainer_keeps_mapping_on_failure :
    ((LoadContainer corruptBuf true true true "amd64").2 = some SifError.badMagic
      ∧ (LoadContainer corruptBuf true true true "amd64").1.mapped = true)
    ∧ ((LoadContainerFp false corruptBuf true true "amd64").2 = some SifError.badMagic
      ∧ (LoadContainerFp false corruptBuf true true "amd64").1.mapped = true) := by
  exact ⟨⟨rfl, rfl⟩, rfl, rfl⟩

/-- Claim C7: calling `UnloadContainer` again on the image returned by a
previous `UnloadContainer` call never crashes: the repeated call returns
normally, leaves the image unchanged, and either succeeds (no backing
file) or reports the munmap failure of the already-released mapping. -/
theorem unloadContainer_repeat_safe (f f1 : FileImage) (e : Option SifError)
    (h : UnloadContainer f = (f1, e)) :
    (UnloadContainer f1).1 = f1
    ∧ ((UnloadContainer f1).2 = none ∨ (UnloadContainer f1).2 = some SifError.munmapFail) := by
  obtain ⟨hdr, da, rd, fp, mp, fc⟩ := f
  cases fp <;> cases mp <;> cases fc
  all_goals
    simp only [UnloadContainer, unmapFile, closeFp] at h
  all_goals
    simp at h
  all_goals
    obtain ⟨h1, h2⟩ := h
  all_goals
    subst h1
  all_goals
    simp [UnloadContainer, unmapFile, closeFp]

/-- Claim C7 witness: unloading a freshly loaded image (file handle
present, mapping established) and unloading the result again. -/
theorem unloadContainer_repeat_safe_witness :
    (UnloadContainer (UnloadContainer sampleLoaded).1).1 = (UnloadContainer sampleLoaded).1
    ∧ ((UnloadContainer (UnloadContainer sampleLoaded).1).2 = none
       ∨ (UnloadContainer (UnloadContainer sampleLoaded).1).2 = some SifError.munmapFail) :=
  unloadContainer_repeat_safe sampleLoaded (UnloadContainer sampleLoaded).1
    (UnloadContainer sampleLoaded).2 rfl

/-- Claim C10: when the host architecture is not a supported SIF
architecture (`GetSIFArch` yields the unknown tag), `isValidSif` fails for
every image and both validation modes, before even looking at the header;
consequently `LoadContainerReader` fails on every buffer on such a host,
although non-runnable validation is specified to check only magic and
version. -/
theorem isValidSif_unsupported_host (goarch : String)
    (h : GetSIFArch goarch = HdrArchUnknown) :
    (∀ (fimg : FileImage) (runnable : Bool),
        isValidSif fimg runnable goarch = .error .unsupportedGoarch)
    ∧ (∀ b : List Nat, (LoadContainerReader b goarch).2.isSome = true) := by
  have hbase : ∀ (fimg : FileImage) (runnable : Bool),
      isValidSif fimg runnable goarch = .error .unsupportedGoarch := by
    intro fimg runnable
    simp only [isValidSif]
    rw [if_pos h]
  refine ⟨hbase, ?_⟩
  intro b
  simp only [LoadContainerReader]
  rcases hrh : readHeader { emptyFileImage with Reader := ⟨b, 0⟩ } with ⟨f1, e⟩
  cases e with
  | some err => simp [hrh]
  | none => simp [hrh, hbase f1 false]

/-- Claim C10 witness: the host "wasm" is outside the architecture table;
validation and buffer loading fail on it. -/
theorem isValidSif_unsupported_host_witness :
    isValidSif emptyFileImage false "wasm" = .error .unsupportedGoarch
    ∧ (LoadContainerReader [] "wasm").2.isSome = true :=
  ⟨(isValidSif_unsupported_host "wasm" rfl).1 emptyFileImage false,
   (isValidSif_unsupported_host "wasm" rfl).2 []⟩

/-- Claim C5: for a buffer whose header decodes and validates in
non-runnable mode (magic and version match; the host architecture must be
supported, see claim C10) but which is shorter than the descriptor table
extent, `LoadContainerReader` returns no error, the populated header, and
an empty descriptor set (nil, or an empty array when the slot capacity is
zero).  The `0 ≤ Dtotal` hypothesis keeps the statement inside the
behaviour the Go code defines: a negative capacity makes Go's `make`
panic. -/
theorem loadContainerReader_short_buffer (b : List Nat) (hdr : Header) (goarch : String)
    (hlen : hdrSize ≤ b.length)
    (hdec : decodeHeader (b.take hdrSize) = hdr)
    (hsup : GetSIFArch goarch ≠ HdrArchUnknown)
    (hmagic : hdrStr hdr.Magic (HdrMagicLen - 1) = HdrMagic)
    (hver : hdrStr hdr.Version (HdrVersionLen - 1) = HdrVersion)
    (hoff : 0 ≤ hdr.Descroff) (hDtotal : 0 ≤ hdr.Dtotal)
    (hshort : b.length < hdr.Descroff.toNat + hdr.Dtotal.toNat * descrSize) :
    (LoadContainerReader b goarch).2 = none
    ∧ (LoadContainerReader b goarch).1.Header = hdr
    ∧ ((LoadContainerReader b goarch).1.DescrArr = none
        ∨ (LoadContainerReader b goarch).1.DescrArr = some []) := by
  have _ := hDtotal
  have hrh : readHeader { emptyFileImage with Reader := ⟨b, 0⟩ }
      = ({ Header := hdr, DescrArr := none, Reader := ⟨b, hdrSize⟩, fpPresent := false, mapped := false, fpClosed := false }, none) := by
    rw [readHeader_success { emptyFileImage with Reader := ⟨b, 0⟩ } b rfl hlen, hdec]
    rfl
  have hval : isValidSif { Header := hdr, DescrArr := none, Reader := ⟨b, hdrSize⟩, fpPresent := false, mapped := false, fpClosed := false } false goarch = .ok () :=
    isValidSif_nonrunnable_ok _ goarch hsup hmagic hver
  rcases readDescriptors_short { Header := hdr, DescrArr := none, Reader := ⟨b, hdrSize⟩, fpPresent := false, mapped := false, fpClosed := false } hoff hshort
    with hcase | ⟨hz, hcase⟩
  · simp [LoadContainerReader, hrh, hval, hcase]
  · simp [LoadContainerReader, hrh, hval, hcase]

/-- Claim C5 witness: the concrete valid buffer whose descriptor table
lies beyond the end of the buffer loads with no error, the decoded
header, and an empty descriptor set. -/
theorem loadContainerReader_short_buffer_witness :
    (LoadContainerReader sampleBuf "amd64").2 = none
    ∧ (LoadContainerReader sampleBuf "amd64").1.Header = decodeHeader (sampleBuf.take hdrSize)
    ∧ ((LoadContainerReader sampleBuf "amd64").1.DescrArr = none
        ∨ (LoadContainerReader sampleBuf "amd64").1.DescrArr = some []) :=
  loadContainerReader_short_buffer sampleBuf (decodeHeader (sampleBuf.take hdrSize)) "amd64"
    (by decide) rfl (by decide) (by decide) (by decide) (by decide) (by decide) (by decide)

/-- Claim C6: a container with valid magic and version whose architecture
tag differs from the (supported) host tag fails runnable validation with
the architecture error — both directly in `isValidSif` and through
`LoadContainer` — while the same container passes non-runnable validation
and loads successfully through `LoadContainerReader`.  The `0 ≤ Dtotal`
hypothesis keeps the statement inside the behaviour the Go code defines
(a negative capacity makes Go's `make` panic while reading descriptors). -/
theorem archMismatch_runnable_fails_nonrunnable_loads (b : List Nat) (hdr : Header)
    (goarch : String)
    (hlen : hdrSize ≤ b.length)
    (hdec : decodeHeader (b.take hdrSize) = hdr)
    (hsup : GetSIFArch goarch ≠ HdrArchUnknown)
    (hmagic : hdrStr hdr.Magic (HdrMagicLen - 1) = HdrMagic)
    (hver : hdrStr hdr.Version (HdrVersionLen - 1) = HdrVersion)
    (harch : hdrStr hdr.Arch (HdrArchLen - 1) ≠ GetSIFArch goarch)
    (hDtotal : 0 ≤ hdr.Dtotal) :
    (∀ fimg : FileImage, fimg.Header = hdr →
        isValidSif fimg true goarch = .error .badArch
        ∧ isValidSif fimg false goarch = .ok ())
    ∧ (LoadContainer b true true true goarch).2 = some SifError.badArch
    ∧ (LoadContainerReader b goarch).2 = none := by
  have _ := hDtotal
  refine ⟨?_, ?_, ?_⟩
  · intro fimg hf
    constructor
    · apply isValidSif_runnable_mismatch fimg goarch hsup
      · rw [hf]
        exact hmagic
      · rw [hf]
        exact hver
      · rw [hf]
        exact harch
    · apply isValidSif_nonrunnable_ok fimg goarch hsup
      · rw [hf]
        exact hmagic
      · rw [hf]
        exact hver
  · have hrh : readHeader { emptyFileImage with fpPresent := true, mapped := true, Reader := ⟨b, 0⟩ }
        = ({ Header := hdr, DescrArr := none, Reader := ⟨b, hdrSize⟩, fpPresent := true, mapped := true, fpClosed := false }, none) := by
      rw [readHeader_success { emptyFileImage with fpPresent := true, mapped := true, Reader := ⟨b, 0⟩ } b rfl hlen, hdec]
      rfl
    have hval : isValidSif { Header := hdr, DescrArr := none, Reader := ⟨b, hdrSize⟩, fpPresent := true, mapped := true, fpClosed := false } true goarch = .error .badArch :=
      isValidSif_runnable_mismatch _ goarch hsup hmagic hver harch
    simp [LoadContainer, hrh, hval]
  · have hrh : readHeader { emptyFileImage with Reader := ⟨b, 0⟩ }
        = ({ Header := hdr, DescrArr := none, Reader := ⟨b, hdrSize⟩, fpPresent := false, mapped := false, fpClosed := false }, none) := by
      rw [readHeader_success { emptyFileImage with Reader := ⟨b, 0⟩ } b rfl hlen, hdec]
      rfl
    have hval : isValidSif { Header := hdr, DescrArr := none, Reader := ⟨b, hdrSize⟩, fpPresent := false, mapped := false, fpClosed := false } false goarch = .ok () :=
      isValidSif_nonrunnable_ok _ goarch hsup hmagic hver
    simp [LoadContainerReader, hrh, hval]

/-- Claim C6 witness: the concrete 386-tagged buffer on an amd64 host:
runnable validation and `LoadContainer` reject it, non-runnable
validation accepts it and `LoadContainerReader` loads it. -/
theorem archMismatch_witness :
    (isValidSif { emptyFileImage with Header := decodeHeader (sampleBuf.take hdrSize) } true "amd64"
        = .error .badArch
      ∧ isValidSif { emptyFileImage with Header := decodeHeader (sampleBuf.take hdrSize) } false "amd64"
        = .ok ())
    ∧ (LoadContainer sampleBuf true true true "amd64").2 = some SifError.badArch
    ∧ (LoadContainerReader sampleBuf "amd64").2 = none :=
  have h := archMismatch_runnable_fails_nonrunnable_loads sampleBuf
    (decodeHeader (sampleBuf.take hdrSize)) "amd64"
    (by decide) rfl (by decide) (by decide) (by decide) (by decide) (by decide)
  ⟨h.1 { emptyFileImage with Header := decodeHeader (sampleBuf.take hdrSize) } rfl, h.2.1, h.2.2⟩

/-- Claim C9: signing any value under any hash-algorithm configuration
with a private key still in its encrypted (locked) state fails with a
KeyError and produces no envelope. -/
theorem signAndEncodeJSON_encrypted_key_fails (v : testType) (key : PrivateKey)
    (cfg : PGPConfig) (hk : key.Encrypted = true) :
    signAndEncodeJSON v key cfg = .error .keyErr := by
  unfold signAndEncodeJSON
  rw [if_pos hk]

/-- Claim C9 witness: a locked key with the SHA-1 configuration. -/
theorem signAndEncodeJSON_encrypted_key_fails_witness :
    signAndEncodeJSON ⟨1, 2⟩ ⟨7, true⟩ ⟨some HashAlgo.SHA1⟩ = .error .keyErr :=
  signAndEncodeJSON_encrypted_key_fails ⟨1, 2⟩ ⟨7, true⟩ ⟨some HashAlgo.SHA1⟩ rfl

/-- Claim C8: verifying any envelope against an empty keyring fails with
UnknownIssuerError, whatever the payload, signature, trailing bytes, or
requested output. -/
theorem verifyAndDecodeJSON_empty_keyring (env : Envelope) (w : Bool) :
    (verifyAndDecodeJSON env w []).1 = .error .unknownIssuer := by
  rfl

/-- Claim C3: signing a value with a decrypted key under any
hash-algorithm configuration and verifying the envelope against a keyring
containing the signer's key succeeds, decodes a value equal to the
original, returns the signer as the matched entity, and reports zero
trailing bytes. -/
theorem sign_then_verify_roundtrip (v : testType) (key : PrivateKey) (cfg : PGPConfig)
    (keyring : List Entity)
    (hk : key.Encrypted = false)
    (hin : Entity.mk key.KeyId ∈ keyring) :
    ∃ env : Envelope,
      signAndEncodeJSON v key cfg = .ok env
      ∧ verifyAndDecodeJSON env true keyring = (.ok (Entity.mk key.KeyId, some v), "") := by
  have hsign : signAndEncodeJSON v key cfg =
      .ok ⟨jsonEncode v, ⟨key.KeyId, configHash cfg, computeDigest (configHash cfg) (jsonEncode v)⟩, ""⟩ := by
    unfold signAndEncodeJSON
    rw [if_neg (by simp [hk])]
  refine ⟨_, hsign, ?_⟩
  simp only [verifyAndDecodeJSON]
  rw [find?_entity keyring key.KeyId hin]
  simp [jsonDecode_jsonEncode]

/-- Claim C3 witness: the test value signed with key 7 under the default
hash and verified against the singleton keyring holding key 7. -/
theorem sign_then_verify_roundtrip_witness :
    ∃ env : Envelope,
      signAndEncodeJSON ⟨1, 2⟩ ⟨7, false⟩ ⟨none⟩ = .ok env
      ∧ verifyAndDecodeJSON env true [⟨7⟩] = (.ok (⟨7⟩, some ⟨1, 2⟩), "") :=
  sign_then_verify_roundtrip ⟨1, 2⟩ ⟨7, false⟩ ⟨none⟩ [⟨7⟩] rfl (by decide)

/-- Claim C4: replacing the canonical payload of a signed envelope by any
different byte string (in particular by any single-byte change) makes
verification fail with SignatureError, for any keyring that resolves the
issuer, and no decoded value is returned. -/
theorem verify_tampered_payload_fails (v : testType) (key : PrivateKey) (cfg : PGPConfig)
    (keyring : List Entity) (env : Envelope) (p2 : String) (w : Bool)
    (hk : key.Encrypted = false)
    (hsig : signAndEncodeJSON v key cfg = .ok env)
    (hin : Entity.mk key.KeyId ∈ keyring)
    (hne : p2 ≠ env.Plaintext) :
    (verifyAndDecodeJSON { env with Plaintext := p2 } w keyring).1 = .error .sigErr := by
  unfold signAndEncodeJSON at hsig
  rw [if_neg (by simp [hk])] at hsig
  injection hsig with henv
  subst henv
  simp only [verifyAndDecodeJSON]
  rw [find?_entity keyring key.KeyId hin]
  have hd : computeDigest (configHash cfg) p2
      ≠ computeDigest (configHash cfg) (jsonEncode v) := by
    intro hcontra
    apply hne
    have := congrArg Digest.content hcontra
    exact this
  simp [hd]

/-- Claim C4 witness: the envelope over the test value with its payload
replaced by a different byte string fails with SignatureError. -/
theorem verify_tampered_payload_fails_witness :
    (verifyAndDecodeJSON { sampleEnv with Plaintext := "x" } true [⟨7⟩]).1 = .error .sigErr :=
  verify_tampered_payload_fails ⟨1, 2⟩ ⟨7, false⟩ ⟨none⟩ [⟨7⟩] sampleEnv "x" true rfl rfl
    (by decide) (by decide)
